import Mathlib

/-!
Verification of the `fastai_slack` notifier (`fastai_slack/__init__.py`)
against its natural-language specification.

The Python module is shallowly embedded below:

* Python `int` is `Int`; numeric metric values (Python floats / tensor
  scalars, always finite in this code path) are modelled as `ℚ`.
* Python's `%` on integers (remainder with the sign of the divisor) is
  `pythonMod`.
* The process environment is a lookup function `String → Option String`;
  the interactive `getpass` prompt is modelled by the string it returns.
* The HTTP transport (`requests.post` together with the serialisation of
  the JSON payload) is a function producing an `HttpOutcome`: either a
  response with a status code and content, or a raised exception.
* The random source of `random.choice` is a function `Fin 6 → Fin 36`
  giving the index chosen at each of the six positions.
* Methods of `SlackCallback` become functions from the record
  `SlackCallback` (its attributes) and the keyword payload to the pair of
  the updated record and the list of message bodies handed to
  `sendNotification`; console `print` output is not modelled.
-/

namespace FastaiSlack

/-- Python's integer remainder `a % b`: the result has the sign of the
divisor `b` (floor division remainder).  `b = 0` raises in Python and is
never reached by the embedded code (both call sites guard it behind a
short-circuit test); the value `0` there is arbitrary. -/
def pythonMod (a b : Int) : Int :=
  if b = 0 then 0
  else if 0 < b then a % b
  else -((-a) % (-b))

/-- `string.ascii_lowercase + string.digits`, the population that
`random.choice` draws from in `generate_tag`. -/
def tag_chars : List Char := "abcdefghijklmnopqrstuvwxyz0123456789".data

/-- Embedding of `generate_tag`: `''.join(random.choice(...) for _ in
range(6))`.  `pick` is the random source: the index drawn at each of the
six positions. -/
def generate_tag (pick : Fin 6 → Fin 36) : String :=
  String.mk ((List.finRange 6).map fun i =>
    tag_chars.get (Fin.cast (by decide) (pick i)))

/-- Embedding of `read_webhook_url`.  `env` is the process environment,
`prompt_input` the string the user types at the `getpass()` prompt.
Note that the Python body tests `ENV_KEY in os.environ` directly: the
`check_env` argument is accepted but never consulted, and `help_text`
only selects console output, which is not modelled. -/
def read_webhook_url ( check_env : Bool) (help_text : Bool)
    (env : String → Option String) (prompt_input : String) : String :=
  match env "FASTAI_SLACK_WEBHOOK" with
  | some v => v
  | none => prompt_input

/-- Python's `a or b` for an optional string `a` (`None` and `''` are
falsy), as used in `SlackCallback.__init__`. -/
def pythonOrStr (a : Option String) (b : String) : String :=
  match a with
  | some s => if s = "" then b else s
  | none => b

/-- Outcome of one `requests.post` call: either an HTTP response (status
code and body) or a raised transport exception. -/
inductive HttpOutcome where
  | response (status : Int) (content : String)
  | raised (exc : String)

/-- Embedding of `sendNotification`.  `post` is the HTTP transport: it
receives the url and the message carried in the JSON payload
`{"text": msg, "mrkdwn": true}` (serialisation is folded into the
transport function) and yields the outcome of the request.  The Python
`try`/`except Exception` block becomes the `raised` branch; the function
is total, so it never propagates a failure to the caller. -/
def sendNotification (post : String → String → HttpOutcome)
    (url : String) (msg : String) : Bool :=
  match post url msg with
  | .response status _ => if status ≠ 200 then false else true
  | .raised _ => false

/-- `'\n'.join` / `'  '.join`-style list joining. -/
def joinWith (sep : String) : List String → String
  | [] => ""
  | [s] => s
  | s :: t :: rest => s ++ sep ++ joinWith sep (t :: rest)

/-- `'\n'.join(msg)`. -/
def joinLines (msg : List String) : String := joinWith "\n" msg

/-- One decimal digit character, `0`–`9`. -/
def digit (d : Nat) : Char := Nat.digitChar d

/-- The decimal digits of a natural number, most significant first
(Python's `str` on a non-negative `int`). -/
def natDecimalDigits (n : Nat) : List Char :=
  if n < 10 then [digit n]
  else natDecimalDigits (n / 10) ++ [digit (n % 10)]
  termination_by n
  decreasing_by simp_wf; omega

/-- Python `str` on a natural number. -/
def natToString (n : Nat) : String := String.mk (natDecimalDigits n)

/-- Python `str` on an integer. -/
def intToString (i : Int) : String :=
  (if i < 0 then "-" else "") ++ natToString i.natAbs

/-- The exactly-four zero-padded fraction digits written by `'{:.4f}'`:
for `k < 10000`, the four decimal digits of `k`. -/
def frac4 (k : Nat) : List Char :=
  [digit (k / 1000 % 10), digit (k / 100 % 10), digit (k / 10 % 10), digit (k % 10)]

/-- Embedding of `format_metric`: `'{:.4f}'.format(val)`.  A finite float
(or detached scalar tensor) is modelled as `val : ℚ`, and the fixed-point
rendering rounds `val * 10^4` to the nearest integer (`⌊· + 1/2⌋`) and
prints its sign and digits with a decimal point before the last four. -/
def format_metric (val : ℚ) : String :=
  let n : Int := ⌊val * 10000 + 1/2⌋
  String.mk ((if n < 0 then ['-'] else []) ++
    natDecimalDigits (n.natAbs / 10000) ++ '.' :: frac4 (n.natAbs % 10000))

/-- The rational number denoted by the string `format_metric` returns
(its "numeric value"): the rounding of `val * 10^4`, divided by `10^4`. -/
def fixed4Value (val : ℚ) : ℚ := (⌊val * 10000 + 1/2⌋ : ℚ) / 10000

/-- The numeric value of a list of decimal digit characters. -/
def digitsVal (l : List Char) : Nat :=
  l.foldl (fun a c => 10 * a + (c.toNat - 48)) 0

/-- The rational denoted by `<digits>.<digits>` (a decimal point splits
integer part from a four-digit fraction part). -/
def fixed4ListVal (l : List Char) : ℚ :=
  (digitsVal (l.takeWhile fun c => c != '.') : ℚ) +
    (digitsVal ((l.dropWhile fun c => c != '.').drop 1) : ℚ) / 10000

/-- The rational denoted by a fixed-point decimal string with an optional
leading minus sign. -/
def fixed4StringVal (s : String) : ℚ :=
  if s.data.headD '0' = '-' then -(fixed4ListVal (s.data.drop 1))
  else fixed4ListVal s.data

/-- Left-pad with spaces to width `w`. -/
def padLeft (s : String) (w : Nat) : String :=
  String.mk (List.replicate (w - s.length) ' ') ++ s

/-- Modelled from the spec: the rendering done by the external `pandas`
library in `format_metrics` (`pd.DataFrame([vals], columns=names)
.to_string(index=False)`), which the repository only calls.  Per spec
§4.3 it is a single-row table: a header row of the column names and one
data row of the values, column-aligned as plain text. -/
def pandas_table (names vals : List String) : String :=
  joinWith "  " ((names.zip vals).map fun p => padLeft p.1 (max p.1.length p.2.length))
    ++ "\n" ++
  joinWith "  " ((names.zip vals).map fun p => padLeft p.2 (max p.1.length p.2.length))

/-- Embedding of `format_metrics`: the formatted values in a table,
wrapped in a Markdown code fence. -/
def format_metrics (names : List String) (metric_vals : List ℚ) : String :=
  "```\n" ++ pandas_table names (metric_vals.map format_metric) ++ "\n```"

/-- The attributes of a `SlackCallback` instance.  `metrics` does not
exist on the Python object before `on_train_begin` assigns it; the
embedding carries it from the start with initial value `[]`. -/
structure SlackCallback where
  name : String
  url : String
  freq : Int
  tag : String
  metrics : List String
deriving DecidableEq

/-- Embedding of `SlackCallback.__init__`.  `webhook_url` is the optional
explicit argument; `env` and `prompt_input` feed the `read_webhook_url
(True, True)` fallback taken when `webhook_url` is falsy. -/
def SlackCallback.init (name : String) (webhook_url : Option String) (frequency : Int)
    (env : String → Option String) (prompt_input : String) : SlackCallback :=
  { name := name, freq := frequency, tag := "",
    url := pythonOrStr webhook_url (read_webhook_url true true env prompt_input),
    metrics := [] }

/-- The banner `_send` puts before every message body: the Python
f-string `f'[\x60{self.name} {self.tag}\x60] {msg}'` up to `msg`. -/
def SlackCallback.banner (cb : SlackCallback) : String :=
  "[`" ++ cb.name ++ " " ++ cb.tag ++ "`] "

/-- Embedding of `SlackCallback._send`: joins a list message with
newlines and hands the banner-prefixed body to `sendNotification`
(a single-string message is the one-element list). -/
def SlackCallback.sendBody (cb : SlackCallback) (msg : List String) : String :=
  cb.banner ++ joinLines msg

/-- Embedding of `SlackCallback._send_metrics`: the message body built
from the optional leading lines `msg`, the `Epoch i/N` line (epoch
number clamped to `n_epochs`) and the metrics table. -/
def SlackCallback.sendMetricsBody (cb : SlackCallback) (msg : List String)
    (epoch n_epochs : Int) (smooth_loss : ℚ) (last_metrics : List ℚ) : String :=
  cb.sendBody (msg ++
    ["Epoch " ++ intToString (min (epoch + 1) n_epochs) ++ "/" ++ intToString n_epochs,
     format_metrics cb.metrics (smooth_loss :: last_metrics)])

/-- Embedding of `SlackCallback.on_train_begin`: regenerate the tag, set
the tracked metric names, send the start message.  Returns the updated
attributes and the dispatched message bodies. -/
def SlackCallback.on_train_begin (cb : SlackCallback) (pick : Fin 6 → Fin 36)
    (n_epochs : Int) (metrics_names : List String) : SlackCallback × List String :=
  let cb' := { cb with tag := generate_tag pick
                       metrics := ["train_loss", "valid_loss"] ++ metrics_names }
  (cb', [cb'.sendBody ["*Started training for " ++ intToString n_epochs ++ " epochs*"]])

/-- Embedding of `SlackCallback.on_epoch_end`: dispatch the per-epoch
metrics report when `self.freq > 0 and (epoch+1) % self.freq == 0`. -/
def SlackCallback.on_epoch_end (cb : SlackCallback) (epoch n_epochs : Int)
    (smooth_loss : ℚ) (last_metrics : List ℚ) : SlackCallback × List String :=
  if 0 < cb.freq ∧ pythonMod (epoch + 1) cb.freq = 0 then
    (cb, [cb.sendMetricsBody [] epoch n_epochs smooth_loss last_metrics])
  else
    (cb, [])

/-- Embedding of `SlackCallback.on_train_end`.  `exception` is
`ka['exception']` (`none` for Python `None`); `last_traceback` models the
ambient `sys.last_traceback` (`some` the list `traceback.format_tb`
returns when the attribute exists).  The exception branch never raises
and consults neither `freq` nor the metrics. -/
def SlackCallback.on_train_end (cb : SlackCallback) (exception : Option String)
    (last_traceback : Option (List String)) (epoch n_epochs : Int)
    (smooth_loss : ℚ) (last_metrics : List ℚ) : SlackCallback × List String :=
  match exception with
  | some ex =>
    let ex_str := "`" ++ ex ++ "`"
    let tb_str := match last_traceback with
      | some tb => "```\n" ++ joinLines tb ++ "\n```"
      | none => "Failed to detect stacktrace"
    (cb, [cb.sendBody ["*Training failed with exception:", ex_str, tb_str]])
  | none =>
    if cb.freq = 0 ∨ 0 < pythonMod n_epochs cb.freq then
      (cb, [cb.sendMetricsBody ["*Training complete*"] epoch n_epochs smooth_loss last_metrics])
    else
      (cb, [cb.sendBody ["*Training complete*"]])

/-- `t` occurs contiguously inside `s`. -/
def strContains (s t : String) : Prop := List.IsInfix t.data s.data

/-- A concrete callback record used as input for the witnesses. -/
def cbW : SlackCallback :=
  { name := "proj", url := "hook", freq := 2, tag := "abc123",
    metrics := ["train_loss", "valid_loss"] }

/-! ### Helper lemmas -/

/-- The sign of `pythonMod` follows the divisor: for a negative divisor
the remainder is never positive. -/
theorem pythonMod_nonpos_of_neg (a b : Int) (hb : b < 0) : pythonMod a b ≤ 0 := by
  unfold pythonMod
  rw [if_neg (by omega), if_neg (by omega)]
  have h : 0 ≤ (-a) % (-b) := @Int.emod_nonneg (-a) (-b) (by omega)
  omega

/-- For a positive divisor, `pythonMod` is the Euclidean remainder. -/
theorem pythonMod_of_pos (a b : Int) (hb : 0 < b) : pythonMod a b = a % b := by
  unfold pythonMod
  rw [if_neg (by omega), if_pos hb]

/-- Exhibiting a decomposition proves containment. -/
theorem strContains_expl (s t : String) (a b : List Char)
    (h : s.data = a ++ t.data ++ b) : strContains s t :=
  ⟨a, b, h.symm⟩

theorem joinLines_cons (s t : String) (rest : List String) :
    joinLines (s :: t :: rest) = s ++ "\n" ++ joinLines (t :: rest) := by
  simp [joinLines, joinWith]

theorem joinLines_single (s : String) : joinLines [s] = s := rfl

/-- A digit character for a value below ten is an ASCII digit. -/
theorem digit_isDigit (d : Nat) (h : d < 10) : (digit d).isDigit = true := by
  interval_cases d <;> decide

/-- Decoding a digit character gives back its value. -/
theorem digit_toNat (d : Nat) (h : d < 10) : (digit d).toNat - 48 = d := by
  interval_cases d <;> decide

/-- ASCII digits are not a decimal point. -/
theorem ne_dot_of_isDigit (c : Char) (h : c.isDigit = true) : (c != '.') = true := by
  rcases eq_or_ne c '.' with rfl | hne
  · exact absurd h (by decide)
  · simpa [bne_iff_ne] using hne

/-- ASCII digits are not a minus sign. -/
theorem ne_dash_of_isDigit (c : Char) (h : c.isDigit = true) : c ≠ '-' := by
  rcases eq_or_ne c '-' with rfl | hne
  · exact absurd h (by decide)
  · exact hne

theorem natDecimalDigits_isDigit (n : Nat) :
    ∀ c ∈ natDecimalDigits n, c.isDigit = true := by
  induction n using Nat.strong_induction_on with
  | _ n ih =>
    rw [natDecimalDigits]
    split
    · intro c hc
      rw [List.mem_singleton] at hc
      subst hc
      exact digit_isDigit n (by omega)
    · intro c hc
      rw [List.mem_append] at hc
      rcases hc with hc | hc
      · exact ih (n / 10) (by omega) c hc
      · rw [List.mem_singleton] at hc
        subst hc
        exact digit_isDigit (n % 10) (Nat.mod_lt n (by omega))

theorem natDecimalDigits_ne_nil (n : Nat) : natDecimalDigits n ≠ [] := by
  rw [natDecimalDigits]
  split <;> simp

theorem digitsVal_append_one (l : List Char) (c : Char) :
    digitsVal (l ++ [c]) = 10 * digitsVal l + (c.toNat - 48) := by
  simp [digitsVal, List.foldl_append]

/-- The decimal rendering of a natural number denotes that number. -/
theorem digitsVal_natDecimalDigits (n : Nat) :
    digitsVal (natDecimalDigits n) = n := by
  induction n using Nat.strong_induction_on with
  | _ n ih =>
    rw [natDecimalDigits]
    split
    · simp [digitsVal, List.foldl]
      exact digit_toNat n (by omega)
    · rw [digitsVal_append_one, ih (n / 10) (by omega), digit_toNat (n % 10) (Nat.mod_lt n (by omega))]
      omega

/-- The four fraction digits denote the fraction value. -/
theorem digitsVal_frac4 (k : Nat) (h : k < 10000) : digitsVal (frac4 k) = k := by
  have h3 : (digit (k / 1000 % 10)).toNat - 48 = k / 1000 % 10 :=
    digit_toNat _ (Nat.mod_lt _ (by omega))
  have h2 : (digit (k / 100 % 10)).toNat - 48 = k / 100 % 10 :=
    digit_toNat _ (Nat.mod_lt _ (by omega))
  have h1 : (digit (k / 10 % 10)).toNat - 48 = k / 10 % 10 :=
    digit_toNat _ (Nat.mod_lt _ (by omega))
  have h0 : (digit (k % 10)).toNat - 48 = k % 10 :=
    digit_toNat _ (Nat.mod_lt _ (by omega))
  simp only [frac4, digitsVal, List.foldl, h3, h2, h1, h0]
  omega

theorem frac4_isDigit (k : Nat) : ∀ c ∈ frac4 k, c.isDigit = true := by
  intro c hc
  simp only [frac4, List.mem_cons, List.mem_singleton, List.not_mem_nil, or_false] at hc
  rcases hc with rfl | rfl | rfl | rfl <;> exact digit_isDigit _ (Nat.mod_lt _ (by omega))

/-- Splitting take/drop of a predicate around the first failing element. -/
theorem takeWhile_dropWhile_around (p : Char → Bool) (l₁ l₂ : List Char) (x : Char)
    (h1 : ∀ c ∈ l₁, p c = true) (hx : p x = false) :
    (l₁ ++ x :: l₂).takeWhile p = l₁ ∧ (l₁ ++ x :: l₂).dropWhile p = x :: l₂ := by
  induction l₁ with
  | nil => simp [List.takeWhile_cons, List.dropWhile_cons, hx]
  | cons a t ih =>
    have ha : p a = true := h1 a (List.mem_cons_self a t)
    have ht := ih fun c hc => h1 c (List.mem_cons_of_mem a hc)
    simp [List.takeWhile_cons, List.dropWhile_cons, ha, ht.1, ht.2]

/-- Any element of the joined list occurs inside the joined string. -/
theorem joinLines_mem_inside (l : List String) (s : String) (h : s ∈ l) :
    ∃ a b, (joinLines l).data = a ++ s.data ++ b := by
  induction l with
  | nil => cases h
  | cons x xs ih =>
    rcases List.mem_cons.mp h with rfl | hx
    · cases xs with
      | nil => exact ⟨[], [], by simp [joinLines_single]⟩
      | cons y ys =>
        exact ⟨[], ("\n" ++ joinLines (y :: ys)).data,
          by simp [joinLines_cons, String.data_append, List.append_assoc]⟩
    · cases xs with
      | nil => cases hx
      | cons y ys =>
        obtain ⟨a, b, hab⟩ := ih hx
        exact ⟨(x ++ "\n").data ++ a, b,
          by simp [joinLines_cons, String.data_append, List.append_assoc, hab]⟩

/-- Every line passed to `_send` occurs inside the dispatched body. -/
theorem sendBody_contains_mem (cb : SlackCallback) (l : List String) (s : String)
    (h : s ∈ l) : strContains (cb.sendBody l) s := by
  obtain ⟨a, b, hab⟩ := joinLines_mem_inside l s h
  exact strContains_expl _ _ (cb.banner.data ++ a) b
    (by simp [SlackCallback.sendBody, String.data_append, hab, List.append_assoc])

/-- Containment is transitive through an inner string. -/
theorem strContains_of_inside (s t u : String) (h : strContains s t)
    (hu : List.IsInfix u.data t.data) : strContains s u :=
  List.IsInfix.trans hu h

/-! ### Claim theorems -/

/-- C3: for every transport, url and message, `sendNotification` returns
`true` exactly when the HTTP response status is `200`; a non-`200`
response and a raised transport exception both yield `false`, and being
a total function the embedding never propagates an exception. -/
theorem sendNotification_true_iff_status200 (post : String → String → HttpOutcome)
    (url msg : String) :
    sendNotification post url msg = true ↔
      ∃ c, post url msg = HttpOutcome.response 200 c := by
  unfold sendNotification
  cases h : post url msg with
  | response status content =>
    by_cases hs : status = 200
    · subst hs
      simp
    · simp [hs]
  | raised e => simp

/-- C9: every tag produced by `generate_tag` has length exactly 6 and
consists only of lowercase ASCII letters and decimal digits. -/
theorem generate_tag_length_and_charset (pick : Fin 6 → Fin 36) :
    (generate_tag pick).length = 6 ∧
      ∀ c ∈ (generate_tag pick).data, c.isLower = true ∨ c.isDigit = true := by
  constructor
  · simp [generate_tag, String.length]
  · intro c hc
    have hc' : c ∈ (List.finRange 6).map fun i =>
        tag_chars.get (Fin.cast (by decide) (pick i)) := hc
    rw [List.mem_map] at hc'
    obtain ⟨i, -, rfl⟩ := hc'
    have hmem : tag_chars.get (Fin.cast (by decide) (pick i)) ∈ tag_chars :=
      List.get_mem tag_chars _ _
    exact (by decide : ∀ c ∈ tag_chars, c.isLower = true ∨ c.isDigit = true) _ hmem

/-- C4: the credential resolver is claimed to consult the environment
variable only when `check_env` is true; the code ignores `check_env`, so
with `check_env = false` and the variable set it still returns the
environment value instead of the prompt input. -/
theorem read_webhook_url_ignores_check_env :
    read_webhook_url false false
        (fun k => if k = "FASTAI_SLACK_WEBHOOK" then some "url-from-env" else none)
        "url-typed-at-prompt"
      = "url-from-env" := by
  decide

/-- C1: `on_epoch_end` dispatches a notification iff `freq > 0` and
`(epoch+1) % freq == 0` (Python remainder); with `freq = 0` it never
dispatches, and with `freq = 2`, `n_epochs = 4` it dispatches exactly at
the epoch indices whose displayed (clamped) epoch number is 2 or 4. -/
theorem on_epoch_end_dispatch_iff (cb : SlackCallback) (epoch n_epochs : Int)
    (sl : ℚ) (lm : List ℚ) :
    ((cb.on_epoch_end epoch n_epochs sl lm).2 ≠ [] ↔
        0 < cb.freq ∧ pythonMod (epoch + 1) cb.freq = 0) ∧
    (cb.freq = 0 → (cb.on_epoch_end epoch n_epochs sl lm).2 = []) ∧
    (cb.freq = 2 → n_epochs = 4 → 0 ≤ epoch → epoch < 4 →
      ((cb.on_epoch_end epoch n_epochs sl lm).2 ≠ [] ↔
        min (epoch + 1) n_epochs = 2 ∨ min (epoch + 1) n_epochs = 4)) := by
  have main : (cb.on_epoch_end epoch n_epochs sl lm).2 ≠ [] ↔
      0 < cb.freq ∧ pythonMod (epoch + 1) cb.freq = 0 := by
    unfold SlackCallback.on_epoch_end
    by_cases h : 0 < cb.freq ∧ pythonMod (epoch + 1) cb.freq = 0
    · rw [if_pos h]
      simp [h]
    · rw [if_neg h]
      simp [h]
  refine ⟨main, fun h0 => ?_, fun h2 h4 he0 he4 => ?_⟩
  · by_contra hne
    exact absurd (main.mp hne).1 (by omega)
  · rw [main, h2, h4, pythonMod_of_pos _ _ (by omega)]
    omega

/-- C1 witness: with `freq = 2`, `n_epochs = 4`, the callback at epoch
index 1 (displayed epoch 2) dispatches. -/
theorem on_epoch_end_dispatch_iff_w : (cbW.on_epoch_end 1 4 0 []).2 ≠ [] :=
  ((on_epoch_end_dispatch_iff cbW 1 4 0 []).2.2 rfl rfl (by decide) (by decide)).mpr
    (by decide)

/-- C10: for every strictly negative frequency, `on_epoch_end` never
dispatches (its guard requires `freq > 0`), and `on_train_end` without
an exception dispatches only the bare "Training complete" message,
because the Python remainder `n_epochs % freq` is never positive for a
negative divisor. -/
theorem negative_frequency_silences_reports (cb : SlackCallback)
    (epoch n_epochs : Int) (sl : ℚ) (lm : List ℚ) (tb : Option (List String))
    (h : cb.freq < 0) :
    (cb.on_epoch_end epoch n_epochs sl lm).2 = [] ∧
    (cb.on_train_end none tb epoch n_epochs sl lm).2
      = [cb.sendBody ["*Training complete*"]] := by
  constructor
  · unfold SlackCallback.on_epoch_end
    rw [if_neg (by rintro ⟨h1, -⟩; omega)]
  · show (if cb.freq = 0 ∨ 0 < pythonMod n_epochs cb.freq then _ else _ :
        SlackCallback × List String).2 = _
    rw [if_neg ?hc]
    case hc =>
      rintro (h0 | hpos)
      · omega
      · exact absurd (pythonMod_nonpos_of_neg n_epochs cb.freq h) (by omega)

/-- C10 witness: `freq = -2` sends the bare completion message. -/
theorem negative_frequency_silences_reports_w :
    ({ cbW with freq := -2 }.on_epoch_end 1 4 0 []).2 = [] :=
  (negative_frequency_silences_reports { cbW with freq := -2 } 1 4 0 [] none
    (by decide)).1

/-- C8: the `RunConfig` attributes (`name`, `url`, `freq`) are unchanged
by every lifecycle callback, and `on_epoch_end` / `on_train_end` leave
the whole record (including `tag` and `metrics`) unchanged; only
`on_train_begin` reassigns `tag` and `metrics`. -/
theorem lifecycle_frame_conditions (cb : SlackCallback) (pick : Fin 6 → Fin 36)
    (n_epochs epoch : Int) (metrics_names : List String) (sl : ℚ) (lm : List ℚ)
    (ex : Option String) (tb : Option (List String)) :
    ((cb.on_train_begin pick n_epochs metrics_names).1.name = cb.name ∧
     (cb.on_train_begin pick n_epochs metrics_names).1.url = cb.url ∧
     (cb.on_train_begin pick n_epochs metrics_names).1.freq = cb.freq) ∧
    (cb.on_epoch_end epoch n_epochs sl lm).1 = cb ∧
    (cb.on_train_end ex tb epoch n_epochs sl lm).1 = cb := by
  refine ⟨⟨rfl, rfl, rfl⟩, ?_, ?_⟩
  · unfold SlackCallback.on_epoch_end
    split <;> rfl
  · cases ex with
    | some e =>
      rfl
    | none =>
      show (if cb.freq = 0 ∨ 0 < pythonMod n_epochs cb.freq then _ else _ :
          SlackCallback × List String).1 = cb
      split <;> rfl

/-- C2: `on_train_end` without an exception dispatches exactly one
message: the combined "Training complete" plus final-metrics report when
`freq == 0` or `n_epochs % freq > 0` (Python remainder), and the bare
"Training complete" body otherwise; every dispatched body contains
"Training complete", and in the combined case it also contains the
metrics table. -/
theorem on_train_end_success_report (cb : SlackCallback) (tb : Option (List String))
    (epoch n_epochs : Int) (sl : ℚ) (lm : List ℚ) :
    (cb.on_train_end none tb epoch n_epochs sl lm).2.length = 1 ∧
    ((cb.freq = 0 ∨ 0 < pythonMod n_epochs cb.freq) →
      (cb.on_train_end none tb epoch n_epochs sl lm).2
        = [cb.sendMetricsBody ["*Training complete*"] epoch n_epochs sl lm]) ∧
    (¬(cb.freq = 0 ∨ 0 < pythonMod n_epochs cb.freq) →
      (cb.on_train_end none tb epoch n_epochs sl lm).2
        = [cb.sendBody ["*Training complete*"]]) ∧
    (∀ m ∈ (cb.on_train_end none tb epoch n_epochs sl lm).2,
      strContains m "*Training complete*") ∧
    ((cb.freq = 0 ∨ 0 < pythonMod n_epochs cb.freq) →
      ∀ m ∈ (cb.on_train_end none tb epoch n_epochs sl lm).2,
        strContains m (format_metrics cb.metrics (sl :: lm))) := by
  have key : cb.on_train_end none tb epoch n_epochs sl lm =
      (if cb.freq = 0 ∨ 0 < pythonMod n_epochs cb.freq
       then (cb, [cb.sendMetricsBody ["*Training complete*"] epoch n_epochs sl lm])
       else (cb, [cb.sendBody ["*Training complete*"]])) := rfl
  rw [key]
  by_cases hc : cb.freq = 0 ∨ 0 < pythonMod n_epochs cb.freq
  · rw [if_pos hc]
    refine ⟨rfl, fun _ => rfl, fun h => absurd hc h, ?_, fun _ m hm => ?_⟩
    · intro m hm
      rw [List.mem_singleton] at hm
      subst hm
      exact sendBody_contains_mem cb _ _ (by simp)
    · rw [List.mem_singleton] at hm
      subst hm
      exact sendBody_contains_mem cb _ _ (by simp)
  · rw [if_neg hc]
    refine ⟨rfl, fun h => absurd h hc, fun _ => rfl, ?_, fun h => absurd h hc⟩
    intro m hm
    rw [List.mem_singleton] at hm
    subst hm
    exact sendBody_contains_mem cb _ _ (by simp)

/-- C2 witness: with `freq = 2` and `n_epochs = 4` the "already reported"
branch is taken and only the bare completion body is dispatched. -/
theorem on_train_end_success_report_w :
    (cbW.on_train_end none none 3 4 0 []).2 = [cbW.sendBody ["*Training complete*"]] :=
  (on_train_end_success_report cbW none 3 4 0 []).2.2.1 (by decide)

/-- C5: `on_train_end` with a present exception dispatches, for every
frequency, exactly one message whose body contains the exception's text
(inside backticks), together with the formatted stack-trace block when
`sys.last_traceback` exists and the "Failed to detect stacktrace"
placeholder otherwise; the callback state is unchanged and the total
embedding re-raises nothing. -/
theorem on_train_end_exception_report (cb : SlackCallback) (ex : String)
    (tb : Option (List String)) (epoch n_epochs : Int) (sl : ℚ) (lm : List ℚ) :
    (cb.on_train_end (some ex) tb epoch n_epochs sl lm).1 = cb ∧
    (cb.on_train_end (some ex) tb epoch n_epochs sl lm).2.length = 1 ∧
    ∀ m ∈ (cb.on_train_end (some ex) tb epoch n_epochs sl lm).2,
      strContains m ex ∧
      (tb = none → strContains m "Failed to detect stacktrace") ∧
      ∀ t, tb = some t → strContains m ("```\n" ++ joinLines t ++ "\n```") := by
  have key : cb.on_train_end (some ex) tb epoch n_epochs sl lm =
      (cb, [cb.sendBody ["*Training failed with exception:", "`" ++ ex ++ "`",
        match tb with
        | some t => "```\n" ++ joinLines t ++ "\n```"
        | none => "Failed to detect stacktrace"]]) := rfl
  rw [key]
  refine ⟨rfl, rfl, ?_⟩
  intro m hm
  rw [List.mem_singleton] at hm
  subst hm
  refine ⟨?_, fun htb => ?_, fun t htb => ?_⟩
  · refine strContains_of_inside _ ("`" ++ ex ++ "`") _
      (sendBody_contains_mem cb _ _ (by simp)) ?_
    exact ⟨"`".data, "`".data, by simp [String.data_append]⟩
  · subst htb
    exact sendBody_contains_mem cb _ _ (by simp)
  · subst htb
    exact sendBody_contains_mem cb _ _ (by simp)

/-- C5 witness: a concrete failed run dispatches a body containing the
exception text. -/
theorem on_train_end_exception_report_w :
    strContains ((cbW.on_train_end (some "ZeroDivisionError") none 3 4 0 []).2.headD "")
      "ZeroDivisionError" := by
  have h := (on_train_end_exception_report cbW "ZeroDivisionError" none 3 4 0 []).2.2
  exact (h _ (by simp [SlackCallback.on_train_end])).1

/-- C7: every dispatched message body is the `[\x60name tag\x60] ` banner
followed by the rest of the body (for `on_train_begin`, with the freshly
regenerated tag), and the `tag` attribute is the empty string from
construction until `on_train_begin` first reassigns it to a generated
tag. -/
theorem banner_prefixed_and_tag_lifecycle (name prompt_input : String)
    (wu : Option String) (frequency : Int) (env : String → Option String)
    (cb : SlackCallback) (pick : Fin 6 → Fin 36) (n_epochs epoch : Int)
    (metrics_names : List String) (sl : ℚ) (lm : List ℚ)
    (ex : Option String) (tb : Option (List String)) :
    (SlackCallback.init name wu frequency env prompt_input).tag = "" ∧
    (cb.on_train_begin pick n_epochs metrics_names).1.tag = generate_tag pick ∧
    (∀ m ∈ (cb.on_train_begin pick n_epochs metrics_names).2,
      ∃ body, m = (cb.on_train_begin pick n_epochs metrics_names).1.banner ++ body) ∧
    (∀ m ∈ (cb.on_epoch_end epoch n_epochs sl lm).2,
      ∃ body, m = cb.banner ++ body) ∧
    (∀ m ∈ (cb.on_train_end ex tb epoch n_epochs sl lm).2,
      ∃ body, m = cb.banner ++ body) := by
  refine ⟨rfl, rfl, ?_, ?_, ?_⟩
  · intro m hm
    rw [show (cb.on_train_begin pick n_epochs metrics_names).2
        = [(cb.on_train_begin pick n_epochs metrics_names).1.sendBody
            ["*Started training for " ++ intToString n_epochs ++ " epochs*"]] from rfl,
      List.mem_singleton] at hm
    subst hm
    exact ⟨_, rfl⟩
  · have key : cb.on_epoch_end epoch n_epochs sl lm =
        (if 0 < cb.freq ∧ pythonMod (epoch + 1) cb.freq = 0
         then (cb, [cb.sendMetricsBody [] epoch n_epochs sl lm])
         else (cb, [])) := rfl
    rw [key]
    split
    · intro m hm
      rw [List.mem_singleton] at hm
      subst hm
      exact ⟨_, rfl⟩
    · intro m hm
      cases hm
  · cases ex with
    | some e =>
      have key : (cb.on_train_end (some e) tb epoch n_epochs sl lm).2
          = [cb.sendBody ["*Training failed with exception:", "`" ++ e ++ "`",
              match tb with
              | some t => "```\n" ++ joinLines t ++ "\n```"
              | none => "Failed to detect stacktrace"]] := rfl
      intro m hm
      rw [key, List.mem_singleton] at hm
      subst hm
      exact ⟨_, rfl⟩
    | none =>
      have key : cb.on_train_end none tb epoch n_epochs sl lm =
          (if cb.freq = 0 ∨ 0 < pythonMod n_epochs cb.freq
           then (cb, [cb.sendMetricsBody ["*Training complete*"] epoch n_epochs sl lm])
           else (cb, [cb.sendBody ["*Training complete*"]])) := rfl
      rw [key]
      split
      · intro m hm
        rw [List.mem_singleton] at hm
        subst hm
        exact ⟨_, rfl⟩
      · intro m hm
        rw [List.mem_singleton] at hm
        subst hm
        exact ⟨_, rfl⟩

/-- C7 witness: a freshly constructed callback carries the empty tag. -/
theorem banner_prefixed_and_tag_lifecycle_w :
    (SlackCallback.init "proj" none 1 (fun _ => none) "typed").tag = "" :=
  (banner_prefixed_and_tag_lifecycle "proj" "typed" none 1 (fun _ => none) cbW
    (fun _ => 0) 4 3 [] 0 [] none none).1

/-- The value denoted by `<digits of m>.<4 digits of k>`. -/
theorem fixed4ListVal_concrete (m k : Nat) (hk : k < 10000) :
    fixed4ListVal (natDecimalDigits m ++ '.' :: frac4 k) = (m : ℚ) + (k : ℚ) / 10000 := by
  have h1 : ∀ c ∈ natDecimalDigits m, (c != '.') = true :=
    fun c hc => ne_dot_of_isDigit c (natDecimalDigits_isDigit m c hc)
  have hsplit := takeWhile_dropWhile_around (fun c => c != '.') (natDecimalDigits m)
    (frac4 k) '.' h1 (by decide)
  unfold fixed4ListVal
  rw [hsplit.1, hsplit.2]
  simp [digitsVal_natDecimalDigits, digitsVal_frac4 k hk]

/-- Reformatting the value denoted by the output leaves the rounding
unchanged. -/
theorem floor_fixed4Value (v : ℚ) :
    ⌊fixed4Value v * 10000 + 1/2⌋ = ⌊v * 10000 + 1/2⌋ := by
  unfold fixed4Value
  rw [div_mul_cancel₀ _ (by norm_num : (10000 : ℚ) ≠ 0), Int.floor_int_add]
  have : ⌊(1/2 : ℚ)⌋ = 0 := by
    rw [Int.floor_eq_zero_iff]
    constructor <;> norm_num
  omega

/-- C6: `format_metric` always renders a single decimal point followed by
exactly four digits (the integer part holds only an optional sign and
digits); the string denotes `fixed4Value v`, and formatting that value
again reproduces the same string (idempotence). -/
theorem format_metric_four_digits_idempotent (v : ℚ) :
    (∃ ip fp, (format_metric v).data = ip ++ '.' :: fp ∧ fp.length = 4 ∧
      (∀ c ∈ fp, c.isDigit = true) ∧ (∀ c ∈ ip, c = '-' ∨ c.isDigit = true) ∧
      (∀ c ∈ ip, c ≠ '.')) ∧
    fixed4StringVal (format_metric v) = fixed4Value v ∧
    format_metric (fixed4Value v) = format_metric v := by
  have hdata : (format_metric v).data =
      (if ⌊v * 10000 + 1/2⌋ < 0 then ['-'] else []) ++
        natDecimalDigits (⌊v * 10000 + 1/2⌋.natAbs / 10000) ++
        '.' :: frac4 (⌊v * 10000 + 1/2⌋.natAbs % 10000) := rfl
  have hk : ⌊v * 10000 + 1/2⌋.natAbs % 10000 < 10000 := Nat.mod_lt _ (by omega)
  have hdm : 10000 * (⌊v * 10000 + 1/2⌋.natAbs / 10000)
      + ⌊v * 10000 + 1/2⌋.natAbs % 10000 = ⌊v * 10000 + 1/2⌋.natAbs := by omega
  refine ⟨?_, ?_, ?_⟩
  · refine ⟨(if ⌊v * 10000 + 1/2⌋ < 0 then ['-'] else []) ++
        natDecimalDigits (⌊v * 10000 + 1/2⌋.natAbs / 10000),
      frac4 (⌊v * 10000 + 1/2⌋.natAbs % 10000),
      by rw [hdata, List.append_assoc], rfl, frac4_isDigit _, ?_, ?_⟩
    · intro c hc
      rw [List.mem_append] at hc
      rcases hc with hc | hc
      · left
        split at hc
        · rwa [List.mem_singleton] at hc
        · cases hc
      · exact Or.inr (natDecimalDigits_isDigit _ c hc)
    · intro c hc
      rw [List.mem_append] at hc
      rcases hc with hc | hc
      · split at hc
        · rw [List.mem_singleton] at hc
          subst hc
          decide
        · cases hc
      · exact bne_iff_ne.mp (ne_dot_of_isDigit c (natDecimalDigits_isDigit _ c hc))
  · obtain ⟨c0, rest, hds⟩ : ∃ c0 rest,
        natDecimalDigits (⌊v * 10000 + 1/2⌋.natAbs / 10000) = c0 :: rest := by
      cases h : natDecimalDigits (⌊v * 10000 + 1/2⌋.natAbs / 10000) with
      | nil => exact absurd h (natDecimalDigits_ne_nil _)
      | cons c0 rest => exact ⟨c0, rest, rfl⟩
    have hc0 : c0.isDigit = true :=
      natDecimalDigits_isDigit _ c0 (hds ▸ List.mem_cons_self c0 rest)
    have hval := fixed4ListVal_concrete (⌊v * 10000 + 1/2⌋.natAbs / 10000)
      (⌊v * 10000 + 1/2⌋.natAbs % 10000) hk
    have hq : (10000 : ℚ) * ((⌊v * 10000 + 1/2⌋.natAbs / 10000 : ℕ) : ℚ)
        + ((⌊v * 10000 + 1/2⌋.natAbs % 10000 : ℕ) : ℚ)
        = ((⌊v * 10000 + 1/2⌋.natAbs : ℕ) : ℚ) := by
      exact_mod_cast congrArg (fun x : ℕ => (x : ℚ)) hdm
    unfold fixed4StringVal
    by_cases hneg : ⌊v * 10000 + 1/2⌋ < 0
    · rw [hdata, if_pos hneg, List.singleton_append, List.cons_append, List.headD_cons,
        if_pos rfl, List.drop_succ_cons, List.drop_zero, hval]
      unfold fixed4Value
      have h1 : ((⌊v * 10000 + 1/2⌋ : ℤ) : ℚ) = -((⌊v * 10000 + 1/2⌋.natAbs : ℕ) : ℚ) := by
        have h2 : (⌊v * 10000 + 1/2⌋ : ℤ) = -(⌊v * 10000 + 1/2⌋.natAbs : ℤ) := by omega
        exact_mod_cast congrArg (fun z : ℤ => (z : ℚ)) h2
      rw [eq_div_iff (by norm_num : (10000 : ℚ) ≠ 0), h1, ← hq]
      ring
    · rw [hdata, if_neg hneg, List.nil_append]
      have hhead : ((natDecimalDigits (⌊v * 10000 + 1/2⌋.natAbs / 10000) ++
          '.' :: frac4 (⌊v * 10000 + 1/2⌋.natAbs % 10000)).headD '0') = c0 := by
        rw [hds]
        rfl
      rw [hhead, if_neg (ne_dash_of_isDigit c0 hc0), hval]
      unfold fixed4Value
      have h1 : ((⌊v * 10000 + 1/2⌋ : ℤ) : ℚ) = ((⌊v * 10000 + 1/2⌋.natAbs : ℕ) : ℚ) := by
        rw [Int.cast_natAbs]
        exact congrArg (fun z : ℤ => (z : ℚ))
          (abs_of_nonneg (by omega : (0 : ℤ) ≤ ⌊v * 10000 + 1/2⌋)).symm
      rw [eq_div_iff (by norm_num : (10000 : ℚ) ≠ 0), h1, ← hq]
      ring
  · show String.mk _ = String.mk _
    rw [floor_fixed4Value]

/-- C3 witness: a transport answering 200 makes `sendNotification`
report success. -/
theorem sendNotification_true_iff_status200_w :
    sendNotification (fun _ _ => HttpOutcome.response 200 "ok") "hook" "hello" = true :=
  (sendNotification_true_iff_status200 (fun _ _ => HttpOutcome.response 200 "ok")
    "hook" "hello").mpr ⟨"ok", rfl⟩

/-- C9 witness: a concrete draw yields a six-character tag. -/
theorem generate_tag_length_and_charset_w :
    (generate_tag (fun _ => 0)).length = 6 :=
  (generate_tag_length_and_charset (fun _ => 0)).1

/-- C6 witness: the output of `format_metric` at `0` denotes
`fixed4Value 0`. -/
theorem format_metric_four_digits_idempotent_w :
    fixed4StringVal (format_metric 0) = fixed4Value 0 :=
  (format_metric_four_digits_idempotent 0).2.1

end FastaiSlack
